import Mathlib

/-
  Verification of the harpoon container-orchestration platform's hard core.

  This file gives a shallow embedding of the scheduler's registry
  (harpoon-scheduler registry.go), the transformer's diff and signal plumbing
  (harpoon-scheduler transform.go), the scheduler's public API guards
  (harpoon-scheduler scheduler.go), and the agent's per-container state
  machine, log ring buffer and heartbeat API (harpoon-agent container.go,
  logs.go, api.go), together with theorems settling the claims about them.

  Conventions of the embedding:
  - Go maps keyed by container ID become functions `String → Option α`
    (function update models insert/delete), or association lists with
    no-duplicate keys where the code iterates over the map.
  - Times and durations become `Int` (an abstract clock); `time.Now()` is an
    explicit `now` parameter.
  - A Go `panic` becomes `Option`/a dedicated result constructor: `none`
    (or `.panicked`) means the code panics and no successor state exists.
  - Fallible functions return `Except String` or pair an `Option String`
    error with their result, mirroring Go's `(T, error)` returns.
  - Channel sends that merely emit data to the outside world (registry
    broadcasts, the `lost` channel, forwarded ack values) are not part of the
    state they mutate; the registered-ack-channel map itself is modelled.
-/

namespace Harpoon

/-! ## Data model (harpoon-agent/lib/agent.go) -/

/-- `Grace` from agent.go: startup and shutdown windows in seconds. -/
structure Grace where
  startup : Int
  shutdown : Int
deriving DecidableEq, Repr

/-- `Command` from agent.go: how to start a binary. -/
structure Command where
  workingDir : String
  exec : List String
deriving DecidableEq, Repr

/-- `Resources` from agent.go. The `CPUs float64` field is a floating-point
number and is not modelled; no claim depends on it. -/
structure Resources where
  memory : Int
deriving DecidableEq, Repr

/-- `Storage` from agent.go: tmp allocations and volume mounts. -/
structure Storage where
  temp : List (String × Int)
  volumes : List (String × String)
deriving DecidableEq, Repr

/-- `ContainerConfig` from agent.go. -/
structure ContainerConfig where
  jobName : String
  taskName : String
  artifactURL : String
  ports : List (String × Nat)
  env : List (String × String)
  command : Command
  resources : Resources
  storage : Storage
  grace : Grace
deriving DecidableEq, Repr

/-- `ContainerStatus` from agent.go: the five enumerated status strings. -/
inductive ContainerStatus where
  | starting
  | running
  | failed
  | finished
  | deleted
deriving DecidableEq, Repr

/-- `ContainerInstance` from agent.go. -/
structure ContainerInstance where
  id : String
  status : ContainerStatus
  config : ContainerConfig
deriving DecidableEq, Repr

/-- `Heartbeat` from agent.go: the supervisor's report. `Status` is "UP" or
"EXITING". The container-process metrics payload is not modelled. -/
structure Heartbeat where
  status : String
  err : String
  timestamp : Int
deriving DecidableEq, Repr

/-- `HeartbeatReply` from agent.go: `Want` is one of UP, DOWN, EXIT. -/
structure HeartbeatReply where
  want : String
  err : String
deriving DecidableEq, Repr

/-! ## Small map utilities shared by the embeddings -/

/-- Function-map update: models Go `m[k] = v` (with `v = some _`) and
`delete(m, k)` (with `v = none`). -/
def updateMap {α : Type} (m : String → Option α) (k : String) (v : Option α) :
    String → Option α :=
  fun k' => if k' = k then v else m k'

/-- The empty map. -/
def emptySMap {α : Type} : String → Option α := fun _ => none

theorem updateMap_eq {α : Type} (m : String → Option α) (k : String) (v : Option α) :
    updateMap m k v k = v := by
  simp [updateMap]

theorem updateMap_ne {α : Type} (m : String → Option α) {k k' : String} (v : Option α)
    (h : k' ≠ k) : updateMap m k v k' = m k' := by
  simp [updateMap, h]

/-- Go map lookup over an association list with no-duplicate keys. -/
def mapGet {α : Type} : List (String × α) → String → Option α
  | [], _ => none
  | (k', v) :: rest, k => if k' = k then some v else mapGet rest k

theorem mapGet_some_mem {α : Type} :
    ∀ {l : List (String × α)} {k : String} {v : α},
      mapGet l k = some v → (k, v) ∈ l := by
  intro l
  induction l with
  | nil => intro k v h; simp [mapGet] at h
  | cons p rest ih =>
    intro k v h
    obtain ⟨k', v'⟩ := p
    by_cases hk : k' = k
    · subst hk
      simp [mapGet] at h
      subst h
      exact List.mem_cons_self _ _
    · simp [mapGet, hk] at h
      exact List.mem_cons_of_mem _ (ih h)

/-! ## Scheduler-side registry (harpoon-scheduler, registry source file)

The registry holds three disjoint maps from container ID to `taskSpec`
(`pendingSchedule`, `scheduled`, `pendingUnschedule`), plus the map of
registered ack channels (`signals`). Ack channels are identified by an
opaque `Nat`; forwarding a value on one and closing it are I/O and are
modelled only through the deletion of the registration. The `subscriptions`
set only receives broadcast copies and never influences the maps, so it is
omitted. -/

/-- `taskSpec`: placement of one container instance. -/
structure taskSpec where
  endpoint : String
  config : ContainerConfig
deriving DecidableEq, Repr

/-- The registry's mutable state. -/
structure RegState where
  pendingSchedule : String → Option taskSpec
  scheduled : String → Option taskSpec
  pendingUnschedule : String → Option taskSpec
  signals : String → Option Nat

theorem RegState.ext {r s : RegState}
    (h1 : r.pendingSchedule = s.pendingSchedule)
    (h2 : r.scheduled = s.scheduled)
    (h3 : r.pendingUnschedule = s.pendingUnschedule)
    (h4 : r.signals = s.signals) : r = s := by
  cases r; cases s; simp_all

/-- `newRegistry`: all maps empty. -/
def emptyRegState : RegState :=
  { pendingSchedule := emptySMap
    scheduled := emptySMap
    pendingUnschedule := emptySMap
    signals := emptySMap }

/-- Outcome of a registry public operation: success with the new state, a
returned error, or a panic. -/
inductive RegResult where
  | ok (s : RegState)
  | err (msg : String)
  | panicked (msg : String)

/-- `if c != nil { r.signals[containerID] = c }`: register the ack channel
when one is given. -/
def registerAck (signals : String → Option Nat) (containerID : String)
    (c : Option Nat) : String → Option Nat :=
  match c with
  | some ch => updateMap signals containerID (some ch)
  | none => signals

/-- `registry.schedule`: valid only when the container ID is non-empty and
absent from all three maps; registers the ack channel when one is given. -/
def schedule (r : RegState) (containerID : String) (spec : taskSpec)
    (c : Option Nat) : RegResult :=
  if containerID = "" then .err "invalid container ID"
  else if (r.pendingSchedule containerID).isSome then
    .err (containerID ++ " already pending schedule")
  else if (r.scheduled containerID).isSome then
    .err (containerID ++ " already scheduled")
  else if (r.pendingUnschedule containerID).isSome then
    .err (containerID ++ " is pending unschedule")
  else if (r.signals containerID).isSome then
    .panicked (containerID ++ " has a registered signal but is not present in any state map")
  else
    .ok { r with
          pendingSchedule := updateMap r.pendingSchedule containerID (some spec)
          signals := registerAck r.signals containerID c }

/-- `registry.unschedule`: valid only when the container ID is non-empty and
in `scheduled`; moves it to `pendingUnschedule`. -/
def unschedule (r : RegState) (containerID : String) (spec : taskSpec)
    (c : Option Nat) : RegResult :=
  if containerID = "" then .err "invalid container ID"
  else if (r.pendingSchedule containerID).isSome then
    .err (containerID ++ " is pending schedule")
  else if (r.pendingUnschedule containerID).isSome then
    .err (containerID ++ " is already pending unschedule")
  else if r.scheduled containerID = none then
    .err (containerID ++ " is not scheduled")
  else if (r.signals containerID).isSome then
    .panicked (containerID ++ " has a registered signal but is not present in any state map")
  else
    .ok { r with
          scheduled := updateMap r.scheduled containerID none
          pendingUnschedule := updateMap r.pendingUnschedule containerID (some spec)
          signals := registerAck r.signals containerID c }

/-- `schedulingSignal` from the registry source file. -/
inductive SchedulingSignal where
  | scheduleSuccessful
  | scheduleFailed
  | unscheduleSuccessful
  | unscheduleFailed
  | containerLost
  | agentUnavailable
  | containerPutFailed
  | containerStartFailed
  | containerStopFailed
  | containerDeleteFailed
deriving DecidableEq, Repr

/-- The state-mutation switch of `registry.signal`. `none` means the Go code
panics ("invalid state in scheduler registry"). Note that the
`containerStartFailed` case is transcribed exactly as the source has it: the
existence check reads `pendingUnschedule` while the delete targets
`pendingSchedule`. -/
def signalMutate (r : RegState) (containerID : String) (sig : SchedulingSignal) :
    Option RegState :=
  match sig with
  | .scheduleSuccessful =>
    match r.pendingSchedule containerID with
    | none => none
    | some spec =>
      some { r with
             scheduled := updateMap r.scheduled containerID (some spec)
             pendingSchedule := updateMap r.pendingSchedule containerID none }
  | .scheduleFailed =>
    match r.pendingSchedule containerID with
    | none => none
    | some _ =>
      some { r with pendingSchedule := updateMap r.pendingSchedule containerID none }
  | .unscheduleSuccessful =>
    match r.pendingUnschedule containerID with
    | none => none
    | some _ =>
      some { r with pendingUnschedule := updateMap r.pendingUnschedule containerID none }
  | .unscheduleFailed =>
    match r.pendingUnschedule containerID with
    | none => none
    | some spec =>
      some { r with
             pendingUnschedule := updateMap r.pendingUnschedule containerID none
             scheduled := updateMap r.scheduled containerID (some spec) }
  | .containerLost =>
    match r.scheduled containerID with
    | none => some r
    | some _ =>
      some { r with scheduled := updateMap r.scheduled containerID none }
  | .agentUnavailable =>
    match r.pendingSchedule containerID with
    | some _ =>
      some { r with pendingSchedule := updateMap r.pendingSchedule containerID none }
    | none =>
      match r.pendingUnschedule containerID with
      | some _ =>
        some { r with pendingUnschedule := updateMap r.pendingUnschedule containerID none }
      | none => none
  | .containerPutFailed =>
    match r.pendingSchedule containerID with
    | none => none
    | some _ =>
      some { r with pendingSchedule := updateMap r.pendingSchedule containerID none }
  | .containerStartFailed =>
    match r.pendingUnschedule containerID with
    | none => none
    | some _ =>
      some { r with pendingSchedule := updateMap r.pendingSchedule containerID none }
  | .containerStopFailed =>
    match r.pendingUnschedule containerID with
    | none => none
    | some spec =>
      some { r with
             pendingUnschedule := updateMap r.pendingUnschedule containerID none
             scheduled := updateMap r.scheduled containerID (some spec) }
  | .containerDeleteFailed =>
    match r.pendingUnschedule containerID with
    | none => none
    | some _ =>
      some { r with pendingUnschedule := updateMap r.pendingUnschedule containerID none }

/-- The tail of `registry.signal`: if an ack channel is registered for the ID
the signal is forwarded on it, the channel is closed, and the registration is
deleted. -/
def forwardAck (r : RegState) (containerID : String) : RegState :=
  if (r.signals containerID).isSome then
    { r with signals := updateMap r.signals containerID none }
  else r

/-- `registry.signal`: mutate per the signal table, then forward to and drop
the registered ack channel. `none` means the call panics. -/
def signal (r : RegState) (containerID : String) (sig : SchedulingSignal) :
    Option RegState :=
  (signalMutate r containerID sig).map (fun s => forwardAck s containerID)

/-- A concrete container configuration used for concrete evaluations. -/
def exampleConfig : ContainerConfig :=
  { jobName := "job"
    taskName := "web"
    artifactURL := "http://host/a.tar.gz"
    ports := []
    env := []
    command := { workingDir := "/srv", exec := ["run"] }
    resources := { memory := 32 }
    storage := { temp := [], volumes := [] }
    grace := { startup := 1, shutdown := 1 } }

/-- A concrete task spec. -/
def exampleSpec : taskSpec :=
  { endpoint := "http://agent:3333", config := exampleConfig }

/-- A registry whose only entry is container "c" in `pendingSchedule` — the
exact state `container-start-failed` is emitted against by `scheduleOne`. -/
def startFailedState : RegState :=
  { pendingSchedule := updateMap emptySMap "c" (some exampleSpec)
    scheduled := emptySMap
    pendingUnschedule := emptySMap
    signals := emptySMap }

/-- C1: evaluating the code at the failing input. With container "c" in
`pendingSchedule` (the exact source state the claim and the spec's signal
table require), `signal(c, container-start-failed)` panics, because the
source checks `pendingUnschedule` for existence even though it deletes from
`pendingSchedule` and its own log line reads "pending-schedule → (deleted)".
The claim describes the intended behaviour; the code's existence check reads
the wrong map. -/
theorem signal_containerStartFailed_panics_on_pendingSchedule :
    signal startFailedState "c" .containerStartFailed = none := by
  rfl

/-! ## Reachable registry states and the disjointness invariant (C2) -/

/-- How many of the three intent maps hold `c` as a key. -/
def keyCount (r : RegState) (c : String) : Nat :=
  (if (r.pendingSchedule c).isSome then 1 else 0) +
  (if (r.scheduled c).isSome then 1 else 0) +
  (if (r.pendingUnschedule c).isSome then 1 else 0)

/-- Registry states reachable from the empty registry by any sequence of
successful `schedule`, `unschedule`, and non-panicking `signal` calls.
(A returned error or a panic leaves no successor state.) -/
inductive Reachable : RegState → Prop where
  | empty : Reachable emptyRegState
  | step_schedule {r r' : RegState} {id : String} {spec : taskSpec} {c : Option Nat} :
      Reachable r → schedule r id spec c = .ok r' → Reachable r'
  | step_unschedule {r r' : RegState} {id : String} {spec : taskSpec} {c : Option Nat} :
      Reachable r → unschedule r id spec c = .ok r' → Reachable r'
  | step_signal {r r' : RegState} {id : String} {sig : SchedulingSignal} :
      Reachable r → signal r id sig = some r' → Reachable r'

theorem schedule_ok {r r' : RegState} {id : String} {spec : taskSpec} {c : Option Nat}
    (h : schedule r id spec c = .ok r') :
    id ≠ "" ∧ r.pendingSchedule id = none ∧ r.scheduled id = none ∧
      r.pendingUnschedule id = none ∧ r.signals id = none ∧
      r' = { r with
             pendingSchedule := updateMap r.pendingSchedule id (some spec)
             signals := registerAck r.signals id c } := by
  unfold schedule at h
  split_ifs at h with h1 h2 h3 h4 h5
  injection h with h'
  exact ⟨h1, Option.not_isSome_iff_eq_none.mp h2, Option.not_isSome_iff_eq_none.mp h3,
    Option.not_isSome_iff_eq_none.mp h4, Option.not_isSome_iff_eq_none.mp h5, h'.symm⟩

theorem unschedule_ok {r r' : RegState} {id : String} {spec : taskSpec} {c : Option Nat}
    (h : unschedule r id spec c = .ok r') :
    id ≠ "" ∧ r.pendingSchedule id = none ∧ (r.scheduled id).isSome ∧
      r.pendingUnschedule id = none ∧ r.signals id = none ∧
      r' = { r with
             scheduled := updateMap r.scheduled id none
             pendingUnschedule := updateMap r.pendingUnschedule id (some spec)
             signals := registerAck r.signals id c } := by
  unfold unschedule at h
  split_ifs at h with h1 h2 h3 h4 h5
  injection h with h'
  exact ⟨h1, Option.not_isSome_iff_eq_none.mp h2, Option.ne_none_iff_isSome.mp h4,
    Option.not_isSome_iff_eq_none.mp h3, Option.not_isSome_iff_eq_none.mp h5, h'.symm⟩

theorem forwardAck_pendingSchedule (r : RegState) (id : String) :
    (forwardAck r id).pendingSchedule = r.pendingSchedule := by
  unfold forwardAck; split <;> rfl

theorem forwardAck_scheduled (r : RegState) (id : String) :
    (forwardAck r id).scheduled = r.scheduled := by
  unfold forwardAck; split <;> rfl

theorem forwardAck_pendingUnschedule (r : RegState) (id : String) :
    (forwardAck r id).pendingUnschedule = r.pendingUnschedule := by
  unfold forwardAck; split <;> rfl

theorem keyCount_forwardAck (r : RegState) (id c : String) :
    keyCount (forwardAck r id) c = keyCount r c := by
  simp [keyCount, forwardAck_pendingSchedule, forwardAck_scheduled,
    forwardAck_pendingUnschedule]

/-- If at most one map holds `id`, then each map holding `id` excludes the
other two. -/
theorem keyCount_bound {r : RegState} {id : String} (h : keyCount r id ≤ 1) :
    ((r.pendingSchedule id).isSome → r.scheduled id = none ∧ r.pendingUnschedule id = none) ∧
    ((r.scheduled id).isSome → r.pendingSchedule id = none ∧ r.pendingUnschedule id = none) ∧
    ((r.pendingUnschedule id).isSome → r.pendingSchedule id = none ∧ r.scheduled id = none) := by
  unfold keyCount at h
  cases hps : r.pendingSchedule id <;> cases hsc : r.scheduled id <;>
    cases hpu : r.pendingUnschedule id <;>
    simp [hps, hsc, hpu] at h ⊢

/-- A non-panicking `signalMutate` touches only `id`, and keeps the bound at
`id` when the source state satisfied it. -/
theorem signalMutate_some {r s : RegState} {id : String} {sig : SchedulingSignal}
    (hm : signalMutate r id sig = some s) (hb : keyCount r id ≤ 1) :
    (∀ c, c ≠ id →
      s.pendingSchedule c = r.pendingSchedule c ∧
      s.scheduled c = r.scheduled c ∧
      s.pendingUnschedule c = r.pendingUnschedule c) ∧
    keyCount s id ≤ 1 := by
  cases sig with
  | scheduleSuccessful =>
    cases hps : r.pendingSchedule id with
    | none => simp [signalMutate, hps] at hm
    | some spec =>
      simp only [signalMutate, hps] at hm
      cases hm
      obtain ⟨hsc, hpu⟩ := (keyCount_bound hb).1 (by simp [hps])
      refine ⟨fun c hc => ⟨updateMap_ne _ _ hc, updateMap_ne _ _ hc, rfl⟩, ?_⟩
      simp [keyCount, updateMap_eq, hpu]
  | scheduleFailed =>
    cases hps : r.pendingSchedule id with
    | none => simp [signalMutate, hps] at hm
    | some spec =>
      simp only [signalMutate, hps] at hm
      cases hm
      obtain ⟨hsc, hpu⟩ := (keyCount_bound hb).1 (by simp [hps])
      refine ⟨fun c hc => ⟨updateMap_ne _ _ hc, rfl, rfl⟩, ?_⟩
      simp [keyCount, updateMap_eq, hsc, hpu]
  | unscheduleSuccessful =>
    cases hpu : r.pendingUnschedule id with
    | none => simp [signalMutate, hpu] at hm
    | some spec =>
      simp only [signalMutate, hpu] at hm
      cases hm
      obtain ⟨hps, hsc⟩ := (keyCount_bound hb).2.2 (by simp [hpu])
      refine ⟨fun c hc => ⟨rfl, rfl, updateMap_ne _ _ hc⟩, ?_⟩
      simp [keyCount, updateMap_eq, hps, hsc]
  | unscheduleFailed =>
    cases hpu : r.pendingUnschedule id with
    | none => simp [signalMutate, hpu] at hm
    | some spec =>
      simp only [signalMutate, hpu] at hm
      cases hm
      obtain ⟨hps, hsc⟩ := (keyCount_bound hb).2.2 (by simp [hpu])
      refine ⟨fun c hc => ⟨rfl, updateMap_ne _ _ hc, updateMap_ne _ _ hc⟩, ?_⟩
      simp [keyCount, updateMap_eq, hps]
  | containerLost =>
    cases hsc : r.scheduled id with
    | none =>
      simp only [signalMutate, hsc] at hm
      cases hm
      exact ⟨fun c hc => ⟨rfl, rfl, rfl⟩, hb⟩
    | some spec =>
      simp only [signalMutate, hsc] at hm
      cases hm
      obtain ⟨hps, hpu⟩ := (keyCount_bound hb).2.1 (by simp [hsc])
      refine ⟨fun c hc => ⟨rfl, updateMap_ne _ _ hc, rfl⟩, ?_⟩
      simp [keyCount, updateMap_eq, hps, hpu]
  | agentUnavailable =>
    cases hps : r.pendingSchedule id with
    | some spec =>
      simp only [signalMutate, hps] at hm
      cases hm
      obtain ⟨hsc, hpu⟩ := (keyCount_bound hb).1 (by simp [hps])
      refine ⟨fun c hc => ⟨updateMap_ne _ _ hc, rfl, rfl⟩, ?_⟩
      simp [keyCount, updateMap_eq, hsc, hpu]
    | none =>
      cases hpu : r.pendingUnschedule id with
      | none => simp [signalMutate, hps, hpu] at hm
      | some spec =>
        simp only [signalMutate, hps, hpu] at hm
        cases hm
        obtain ⟨-, hsc⟩ := (keyCount_bound hb).2.2 (by simp [hpu])
        refine ⟨fun c hc => ⟨rfl, rfl, updateMap_ne _ _ hc⟩, ?_⟩
        simp [keyCount, updateMap_eq, hps, hsc]
  | containerPutFailed =>
    cases hps : r.pendingSchedule id with
    | none => simp [signalMutate, hps] at hm
    | some spec =>
      simp only [signalMutate, hps] at hm
      cases hm
      obtain ⟨hsc, hpu⟩ := (keyCount_bound hb).1 (by simp [hps])
      refine ⟨fun c hc => ⟨updateMap_ne _ _ hc, rfl, rfl⟩, ?_⟩
      simp [keyCount, updateMap_eq, hsc, hpu]
  | containerStartFailed =>
    cases hpu : r.pendingUnschedule id with
    | none => simp [signalMutate, hpu] at hm
    | some spec =>
      simp only [signalMutate, hpu] at hm
      cases hm
      obtain ⟨hps, hsc⟩ := (keyCount_bound hb).2.2 (by simp [hpu])
      refine ⟨fun c hc => ⟨updateMap_ne _ _ hc, rfl, rfl⟩, ?_⟩
      simp [keyCount, updateMap_eq, hsc, hpu]
  | containerStopFailed =>
    cases hpu : r.pendingUnschedule id with
    | none => simp [signalMutate, hpu] at hm
    | some spec =>
      simp only [signalMutate, hpu] at hm
      cases hm
      obtain ⟨hps, hsc⟩ := (keyCount_bound hb).2.2 (by simp [hpu])
      refine ⟨fun c hc => ⟨rfl, updateMap_ne _ _ hc, updateMap_ne _ _ hc⟩, ?_⟩
      simp [keyCount, updateMap_eq, hps]
  | containerDeleteFailed =>
    cases hpu : r.pendingUnschedule id with
    | none => simp [signalMutate, hpu] at hm
    | some spec =>
      simp only [signalMutate, hpu] at hm
      cases hm
      obtain ⟨hps, hsc⟩ := (keyCount_bound hb).2.2 (by simp [hpu])
      refine ⟨fun c hc => ⟨rfl, rfl, updateMap_ne _ _ hc⟩, ?_⟩
      simp [keyCount, updateMap_eq, hps, hsc]

/-- One step preserves the at-most-one invariant if it leaves every container
other than `id` untouched and establishes the bound at `id`. -/
theorem keyCount_le_one_step (id : String) {r r' : RegState}
    (hne : ∀ c, c ≠ id →
      r'.pendingSchedule c = r.pendingSchedule c ∧
      r'.scheduled c = r.scheduled c ∧
      r'.pendingUnschedule c = r.pendingUnschedule c)
    (hid : keyCount r' id ≤ 1)
    (ih : ∀ c, keyCount r c ≤ 1) : ∀ c, keyCount r' c ≤ 1 := by
  intro c
  by_cases hc : c = id
  · exact hc ▸ hid
  · obtain ⟨e1, e2, e3⟩ := hne c hc
    simpa [keyCount, e1, e2, e3] using ih c

/-- C2: in every reachable registry state, a container ID is a key of at most
one of the three maps `pendingSchedule`, `scheduled`, `pendingUnschedule`. -/
theorem reachable_keyCount_le_one {r : RegState} (h : Reachable r) :
    ∀ c, keyCount r c ≤ 1 := by
  induction h with
  | empty =>
    intro c
    simp [keyCount, emptyRegState, emptySMap]
  | step_schedule hr hs ih =>
    rename_i r₀ r' id spec ack
    obtain ⟨-, hps, hsc, hpu, -, rfl⟩ := schedule_ok hs
    refine keyCount_le_one_step id (fun c hc => ?_) ?_ ih
    · exact ⟨updateMap_ne _ _ hc, rfl, rfl⟩
    · simp [keyCount, updateMap_eq, hsc, hpu]
  | step_unschedule hr hs ih =>
    rename_i r₀ r' id spec ack
    obtain ⟨-, hps, hsc, hpu, -, rfl⟩ := unschedule_ok hs
    refine keyCount_le_one_step id (fun c hc => ?_) ?_ ih
    · exact ⟨rfl, updateMap_ne _ _ hc, updateMap_ne _ _ hc⟩
    · simp [keyCount, updateMap_eq, hps]
  | step_signal hr hs ih =>
    rename_i r₀ r' id sig
    obtain ⟨s, hm, rfl⟩ := Option.map_eq_some'.mp hs
    obtain ⟨hne, hid⟩ := signalMutate_some hm (ih id)
    refine keyCount_le_one_step id (fun c hc => ?_) ?_ ih
    · obtain ⟨e1, e2, e3⟩ := hne c hc
      simp only [forwardAck_pendingSchedule, forwardAck_scheduled,
        forwardAck_pendingUnschedule]
      exact ⟨e1, e2, e3⟩
    · simpa [keyCount_forwardAck] using hid

/-- C2 witness: the invariant applied at the empty registry and a concrete
container ID. -/
theorem reachable_keyCount_le_one_witness : keyCount emptyRegState "c" ≤ 1 :=
  reachable_keyCount_le_one Reachable.empty "c"

/-! ## Round-trip law (C4): schedule, ack, unschedule, ack -/

/-- The state produced by a registry public operation, if it succeeded. -/
def RegResult.okState : RegResult → Option RegState
  | .ok s => some s
  | .err _ => none
  | .panicked _ => none

/-- The sequence `schedule(id, spec); signal(id, schedule-successful);
unschedule(id, spec); signal(id, unschedule-successful)`; `none` when any
step returns an error or panics. -/
def roundTrip (r : RegState) (id : String) (spec : taskSpec)
    (a1 a2 : Option Nat) : Option RegState :=
  (schedule r id spec a1).okState.bind fun s1 =>
    (signal s1 id .scheduleSuccessful).bind fun s2 =>
      (unschedule s2 id spec a2).okState.bind fun s3 =>
        signal s3 id .unscheduleSuccessful

theorem forwardAck_signals_apply (r : RegState) (id k : String) :
    (forwardAck r id).signals k = if k = id then none else r.signals k := by
  unfold forwardAck
  split
  · simp [updateMap]
  · rename_i h
    by_cases hk : k = id
    · subst hk
      simp [Option.not_isSome_iff_eq_none.mp h]
    · simp [hk]

theorem registerAck_apply_ne {k id : String} (h : k ≠ id)
    (signals : String → Option Nat) (c : Option Nat) :
    registerAck signals id c k = signals k := by
  cases c <;> simp [registerAck, updateMap, h]

/-- C4 (amended with `id ≠ ""`): starting from any registry state in which a
non-empty container ID is absent from all three maps and has no registered
ack channel, the schedule/ack/unschedule/ack sequence succeeds and restores
the three maps and the ack-channel map exactly. -/
theorem registry_roundTrip (r : RegState) (id : String) (spec : taskSpec)
    (a1 a2 : Option Nat) (hid : id ≠ "")
    (hps : r.pendingSchedule id = none) (hsc : r.scheduled id = none)
    (hpu : r.pendingUnschedule id = none) (hsig : r.signals id = none) :
    roundTrip r id spec a1 a2 = some r := by
  have e1 : schedule r id spec a1 = .ok
      ⟨updateMap r.pendingSchedule id (some spec), r.scheduled, r.pendingUnschedule,
        registerAck r.signals id a1⟩ := by
    simp [schedule, hid, hps, hsc, hpu, hsig]
  have e2 : signal
      (⟨updateMap r.pendingSchedule id (some spec), r.scheduled, r.pendingUnschedule,
        registerAck r.signals id a1⟩ : RegState) id .scheduleSuccessful =
      some (forwardAck
        ⟨updateMap (updateMap r.pendingSchedule id (some spec)) id none,
         updateMap r.scheduled id (some spec), r.pendingUnschedule,
         registerAck r.signals id a1⟩ id) := by
    simp [signal, signalMutate, updateMap_eq]
  have e3 : unschedule
      (forwardAck
        ⟨updateMap (updateMap r.pendingSchedule id (some spec)) id none,
         updateMap r.scheduled id (some spec), r.pendingUnschedule,
         registerAck r.signals id a1⟩ id) id spec a2 = .ok
      ⟨updateMap (updateMap r.pendingSchedule id (some spec)) id none,
       updateMap (updateMap r.scheduled id (some spec)) id none,
       updateMap r.pendingUnschedule id (some spec),
       registerAck ((forwardAck
        ⟨updateMap (updateMap r.pendingSchedule id (some spec)) id none,
         updateMap r.scheduled id (some spec), r.pendingUnschedule,
         registerAck r.signals id a1⟩ id).signals) id a2⟩ := by
    have g2 : (forwardAck
        ⟨updateMap (updateMap r.pendingSchedule id (some spec)) id none,
         updateMap r.scheduled id (some spec), r.pendingUnschedule,
         registerAck r.signals id a1⟩ id).signals id = none := by
      simp [forwardAck_signals_apply]
    simp [unschedule, hid, forwardAck_pendingSchedule, forwardAck_scheduled,
      forwardAck_pendingUnschedule, updateMap_eq, hpu, g2]
  have e4 : signal
      (⟨updateMap (updateMap r.pendingSchedule id (some spec)) id none,
        updateMap (updateMap r.scheduled id (some spec)) id none,
        updateMap r.pendingUnschedule id (some spec),
        registerAck ((forwardAck
         ⟨updateMap (updateMap r.pendingSchedule id (some spec)) id none,
          updateMap r.scheduled id (some spec), r.pendingUnschedule,
          registerAck r.signals id a1⟩ id).signals) id a2⟩ : RegState) id
      .unscheduleSuccessful =
      some (forwardAck
       ⟨updateMap (updateMap r.pendingSchedule id (some spec)) id none,
        updateMap (updateMap r.scheduled id (some spec)) id none,
        updateMap (updateMap r.pendingUnschedule id (some spec)) id none,
        registerAck ((forwardAck
         ⟨updateMap (updateMap r.pendingSchedule id (some spec)) id none,
          updateMap r.scheduled id (some spec), r.pendingUnschedule,
          registerAck r.signals id a1⟩ id).signals) id a2⟩ id) := by
    simp [signal, signalMutate, updateMap_eq]
  unfold roundTrip
  rw [e1]
  simp only [RegResult.okState, Option.some_bind]
  rw [e2]
  simp only [Option.some_bind]
  rw [e3]
  simp only [RegResult.okState, Option.some_bind]
  rw [e4]
  congr 1
  refine RegState.ext ?_ ?_ ?_ ?_ <;> funext k <;> by_cases hk : k = id
  · subst hk
    simp [forwardAck_pendingSchedule, updateMap_eq, hps]
  · simp [forwardAck_pendingSchedule, updateMap_ne _ _ hk]
  · subst hk
    simp [forwardAck_scheduled, updateMap_eq, hsc]
  · simp [forwardAck_scheduled, updateMap_ne _ _ hk]
  · subst hk
    simp [forwardAck_pendingUnschedule, updateMap_eq, hpu]
  · simp [forwardAck_pendingUnschedule, updateMap_ne _ _ hk]
  · subst hk
    simp [forwardAck_signals_apply, hsig]
  · simp [forwardAck_signals_apply, hk, registerAck_apply_ne hk]

/-- C4 counterexample: as literally stated the claim also covers the empty
container ID, which is absent from all maps of the empty registry and has no
ack channel; but `schedule` rejects the empty ID, so the sequence fails and
does not restore the initial state. -/
theorem registry_roundTrip_empty_id_fails :
    ¬ (roundTrip emptyRegState "" exampleSpec none none = some emptyRegState) := by
  intro h
  rw [show roundTrip emptyRegState "" exampleSpec none none = none by
    simp [roundTrip, schedule, RegResult.okState]] at h
  exact Option.noConfusion h

/-- C4 witness: the amended round-trip law applied at the empty registry and
container ID "c". -/
theorem registry_roundTrip_witness :
    roundTrip emptyRegState "c" exampleSpec none none = some emptyRegState := by
  refine registry_roundTrip emptyRegState "c" exampleSpec none none ?_ rfl rfl rfl rfl
  decide

/-! ## Agent-side per-container state machine (harpoon-agent/container.go)

The container's runloop serializes all operations, so the state machine is a
pure function of the container's own fields. Mutable fields: the embedded
`ContainerInstance` (its status), `desired`, `downDeadline`, and the
subscriber set. A subscriber is modelled by the list of instance events it
has received; `updateStatus` sends the updated instance to every
subscriber. -/

/-- The agent-wide heartbeat interval (3 seconds). -/
def heartbeatInterval : Int := 3

/-- The `container` struct's mutable state. The embedded
`libcontainer.Config`, which is written once at construction and never read
by the claims' operations, is omitted. `instance` is a Lean keyword, so the
embedded `ContainerInstance` field is named `inst`. -/
structure Container where
  inst : ContainerInstance
  desired : String
  downDeadline : Int
  subscribers : List (List ContainerInstance)
deriving DecidableEq, Repr

/-- `container.updateStatus`: set the instance status and send the updated
instance to every subscriber. -/
def updateStatus (c : Container) (status : ContainerStatus) : Container :=
  { c with
    inst := { c.inst with status := status }
    subscribers :=
      c.subscribers.map (fun events => events ++ [{ c.inst with status := status }]) }

/-- `container.heartbeat`: the advisory returned to the supervisor, switched
on the pair `(desired, report status)` exactly as the source's `switch`
on `state{c.desired, hb.Status}`. `now > downDeadline` models
`time.Now().After(c.downDeadline)`. -/
def heartbeat (c : Container) (now : Int) (hb : Heartbeat) : String × Container :=
  if c.desired = "UP" ∧ hb.status = "UP" then ("UP", c)
  else if c.desired = "UP" ∧ hb.status = "EXITING" then
    ("EXIT", updateStatus c .finished)
  else if c.desired = "DOWN" ∧ hb.status = "UP" then
    ((if now > c.downDeadline then "EXIT" else "DOWN"), c)
  else if c.desired = "DOWN" ∧ hb.status = "EXITING" then
    ("EXIT", updateStatus c .finished)
  else if c.desired = "EXIT" ∧ hb.status = "UP" then ("EXIT", c)
  else if c.desired = "EXIT" ∧ hb.status = "EXITING" then
    ("EXIT", updateStatus c .finished)
  else ("UNKNOWN", c)

/-- `container.stop`: record the desire to go down and the deadline; never an
error, never a synchronous kill. -/
def stop (c : Container) (now t : Int) : Option String × Container :=
  (none, { c with desired := "DOWN", downDeadline := now + t + heartbeatInterval })

/-- A concrete container used for concrete evaluations. -/
def exampleContainer : Container :=
  { inst := { id := "c", status := .running, config := exampleConfig }
    desired := "UP"
    downDeadline := 10
    subscribers := [] }

/-- A container whose `desired` is none of UP, DOWN, EXIT. -/
def exampleUnknownContainer : Container :=
  { inst := { id := "c", status := .running, config := exampleConfig }
    desired := "FOO"
    downDeadline := 10
    subscribers := [] }

/-- C3: the heartbeat reply follows the table on `(desired, reported)`:
(UP,UP) replies UP; (UP,EXITING) replies EXIT and sets status to finished;
(DOWN,UP) replies DOWN, or EXIT past the down deadline; (DOWN,EXITING)
replies EXIT and sets status to finished; (EXIT,UP) replies EXIT;
(EXIT,EXITING) replies EXIT and sets status to finished; any other desired
value replies UNKNOWN with no state change. -/
theorem heartbeat_table (c : Container) (now : Int) (hb : Heartbeat) :
    (c.desired = "UP" → hb.status = "UP" → heartbeat c now hb = ("UP", c)) ∧
    (c.desired = "UP" → hb.status = "EXITING" →
      heartbeat c now hb = ("EXIT", updateStatus c .finished)) ∧
    (c.desired = "DOWN" → hb.status = "UP" →
      heartbeat c now hb = ((if now > c.downDeadline then "EXIT" else "DOWN"), c)) ∧
    (c.desired = "DOWN" → hb.status = "EXITING" →
      heartbeat c now hb = ("EXIT", updateStatus c .finished)) ∧
    (c.desired = "EXIT" → hb.status = "UP" → heartbeat c now hb = ("EXIT", c)) ∧
    (c.desired = "EXIT" → hb.status = "EXITING" →
      heartbeat c now hb = ("EXIT", updateStatus c .finished)) ∧
    (c.desired ≠ "UP" → c.desired ≠ "DOWN" → c.desired ≠ "EXIT" →
      heartbeat c now hb = ("UNKNOWN", c)) := by
  obtain ⟨inst, desired, dl, subs⟩ := c
  obtain ⟨hstatus, herr, hts⟩ := hb
  refine ⟨?_, ?_, ?_, ?_, ?_, ?_, ?_⟩
  · intro h1 h2
    dsimp only at h1 h2
    subst h1; subst h2
    rfl
  · intro h1 h2
    dsimp only at h1 h2
    subst h1; subst h2
    rfl
  · intro h1 h2
    dsimp only at h1 h2
    subst h1; subst h2
    rfl
  · intro h1 h2
    dsimp only at h1 h2
    subst h1; subst h2
    rfl
  · intro h1 h2
    dsimp only at h1 h2
    subst h1; subst h2
    rfl
  · intro h1 h2
    dsimp only at h1 h2
    subst h1; subst h2
    rfl
  · intro h1 h2 h3
    dsimp only at h1 h2 h3
    simp [heartbeat, h1, h2, h3]

/-- C3 witness: the table applied at concrete containers, for the (UP,UP)
row and the unknown-desired row. -/
theorem heartbeat_table_witness :
    heartbeat exampleContainer 0 { status := "UP", err := "", timestamp := 0 } =
      ("UP", exampleContainer) ∧
    heartbeat exampleUnknownContainer 0 { status := "UP", err := "", timestamp := 0 } =
      ("UNKNOWN", exampleUnknownContainer) :=
  ⟨(heartbeat_table exampleContainer 0 { status := "UP", err := "", timestamp := 0 }).1
      rfl rfl,
   (heartbeat_table exampleUnknownContainer 0
      { status := "UP", err := "", timestamp := 0 }).2.2.2.2.2.2
      (by decide) (by decide) (by decide)⟩

/-- C7: `Stop(t)` (routed through the runloop to `container.stop`) returns
nil, sets `desired` to DOWN and `downDeadline` to now + t +
heartbeatInterval, and changes nothing else: the instance (in particular its
status and config) and the subscriber set are untouched, and no subscriber
receives any event (no synchronous kill, no status change). -/
theorem stop_spec (c : Container) (now t : Int) :
    (stop c now t).1 = none ∧
    (stop c now t).2.desired = "DOWN" ∧
    (stop c now t).2.downDeadline = now + t + heartbeatInterval ∧
    (stop c now t).2.inst = c.inst ∧
    (stop c now t).2.subscribers = c.subscribers :=
  ⟨rfl, rfl, rfl, rfl, rfl⟩

/-! ## Agent heartbeat API (harpoon-agent api.go, handleHeartbeat)

The agent-side registry maps container IDs to container state machines;
`registry.Get` is a map lookup. The handler decodes the heartbeat body,
looks up the container, and replies; `json.NewEncoder(w).Encode` performs an
implicit `WriteHeader(200)`. -/

/-- `api.handleHeartbeat` after a successful body decode: HTTP status,
reply, and the container's successor state (`none` when the ID is
unknown). -/
def handleHeartbeat (reg : String → Option Container) (id : String) (now : Int)
    (hb : Heartbeat) : Nat × HeartbeatReply × Option Container :=
  match reg id with
  | none => (200, { want := "EXIT", err := "" }, none)
  | some c =>
    let wc := heartbeat c now hb
    (200, { want := wc.1, err := "" }, some wc.2)

/-- C10: a heartbeat for a container ID absent from the agent's registry is
answered HTTP 200 with want = EXIT (not 404). -/
theorem handleHeartbeat_unknown (reg : String → Option Container) (id : String)
    (now : Int) (hb : Heartbeat) (h : reg id = none) :
    handleHeartbeat reg id now hb = (200, { want := "EXIT", err := "" }, none) := by
  simp [handleHeartbeat, h]

/-- C10 witness: the empty registry and container ID "c". -/
theorem handleHeartbeat_unknown_witness :
    handleHeartbeat emptySMap "c" 0 { status := "UP", err := "", timestamp := 0 } =
      (200, { want := "EXIT", err := "" }, none) :=
  handleHeartbeat_unknown emptySMap "c" 0 _ rfl

/-! ## Ring buffer (harpoon-agent/logs.go)

Go's `container/ring` is a circular list of `length` cells; `RingBuffer`
keeps the ring and the current pointer. The ring is represented by the cell
contents (index → optional stored line) plus the pointer index; `Next` is
`+1 mod size` and `Prev` is `-1 mod size`. -/

/-- `RingBuffer` from logs.go: `elements *ring.Ring` with `length` cells and
the current pointer. -/
structure RingBuffer where
  size : Nat
  cells : Nat → Option String
  pos : Nat

/-- `NewRingBuffer(size)`: a ring of `size` empty cells. -/
def NewRingBuffer (n : Nat) : RingBuffer :=
  { size := n, cells := fun _ => none, pos := 0 }

/-- `RingBuffer.Insert`: write at the pointer, advance the pointer. -/
def RingBuffer.Insert (b : RingBuffer) (x : String) : RingBuffer :=
  { b with
    cells := fun i => if i = b.pos then some x else b.cells i
    pos := (b.pos + 1) % b.size }

/-- The collection loop of `RingBuffer.Last`: walk `Prev` up to `count`
times, stopping at the first nil cell, newest first. -/
def lastAux (size : Nat) (cells : Nat → Option String) : Nat → Nat → List String
  | _, 0 => []
  | p, c + 1 =>
    match cells ((p + size - 1) % size) with
    | some v => v :: lastAux size cells ((p + size - 1) % size) c
    | none => []

/-- `RingBuffer.Last`: clamp the count to the capacity, collect backwards
from the pointer, and reverse into oldest-to-newest order. -/
def RingBuffer.Last (b : RingBuffer) (count : Nat) : List String :=
  (lastAux b.size b.cells b.pos (min count b.size)).reverse

/-- Feeding a sequence of lines into a buffer, oldest first. -/
def insertAll (b : RingBuffer) (ms : List String) : RingBuffer :=
  ms.foldl RingBuffer.Insert b

/-- Stepping the ring pointer backwards `j` times. -/
def backPos (size : Nat) : Nat → Nat → Nat
  | 0, p => p
  | j + 1, p => backPos size j ((p + size - 1) % size)

theorem stepBack_eq {N p : Nat} (hN : 0 < N) (hp : p < N) :
    (p + N - 1) % N = if p = 0 then N - 1 else p - 1 := by
  by_cases hp0 : p = 0
  · subst hp0
    rw [if_pos rfl]
    have h : 0 + N - 1 = N - 1 := by omega
    rw [h, Nat.mod_eq_of_lt (by omega)]
  · rw [if_neg hp0]
    have h : p + N - 1 = (p - 1) + N := by omega
    rw [h, Nat.add_mod_right, Nat.mod_eq_of_lt (by omega)]

theorem backPos_char {N : Nat} (hN : 0 < N) :
    ∀ j p, p < N → j ≤ N →
      backPos N j p = if j ≤ p then p - j else N - (j - p) := by
  intro j
  induction j with
  | zero => intro p hp _; simp [backPos]
  | succ j ih =>
    intro p hp hj
    have hq : (p + N - 1) % N < N := Nat.mod_lt _ hN
    rw [backPos, ih _ hq (by omega), stepBack_eq hN hp]
    split_ifs <;> omega

theorem lastAux_update (N : Nat) (cells : Nat → Option String) (q : Nat)
    (v : Option String) :
    ∀ c p, (∀ j, 1 ≤ j → j ≤ c → backPos N j p ≠ q) →
      lastAux N (fun i => if i = q then v else cells i) p c =
        lastAux N cells p c := by
  intro c
  induction c with
  | zero => intro p _; rfl
  | succ c ih =>
    intro p h
    have h1 : (p + N - 1) % N ≠ q := h 1 (by omega) (by omega)
    have hrec : ∀ j, 1 ≤ j → j ≤ c → backPos N j ((p + N - 1) % N) ≠ q := by
      intro j hj1 hj2
      exact h (j + 1) (by omega) (by omega)
    unfold lastAux
    rw [if_neg h1]
    cases cells ((p + N - 1) % N) with
    | none => rfl
    | some w => rw [ih _ hrec]

theorem insertAll_spec (N : Nat) (hN : 0 < N) (ms : List String) :
    (insertAll (NewRingBuffer N) ms).size = N ∧
    (insertAll (NewRingBuffer N) ms).pos < N ∧
    ∀ c, c ≤ N →
      lastAux N (insertAll (NewRingBuffer N) ms).cells
        (insertAll (NewRingBuffer N) ms).pos c = ms.reverse.take c := by
  induction ms using List.reverseRecOn with
  | nil =>
    refine ⟨rfl, hN, fun c hc => ?_⟩
    cases c with
    | zero => rfl
    | succ c => simp [lastAux, NewRingBuffer, insertAll]
  | append_singleton ms x ih =>
    obtain ⟨hsize, hpos, hlast⟩ := ih
    have hfold : insertAll (NewRingBuffer N) (ms ++ [x]) =
        (insertAll (NewRingBuffer N) ms).Insert x := by
      simp [insertAll, List.foldl_append]
    set b := insertAll (NewRingBuffer N) ms with hb
    rw [hfold]
    have hsize' : (b.Insert x).size = N := hsize
    have hpos' : (b.Insert x).pos < N := by
      show (b.pos + 1) % b.size < N
      rw [hsize]
      exact Nat.mod_lt _ hN
    refine ⟨hsize', hpos', fun c hc => ?_⟩
    cases c with
    | zero => rfl
    | succ c =>
      show lastAux N (fun i => if i = b.pos then some x else b.cells i)
        ((b.pos + 1) % b.size) (c + 1) = (ms ++ [x]).reverse.take (c + 1)
      rw [hsize]
      have hback : (((b.pos + 1) % N) + N - 1) % N = b.pos := by
        rcases Nat.lt_or_ge (b.pos + 1) N with h | h
        · rw [Nat.mod_eq_of_lt h]
          have he : b.pos + 1 + N - 1 = b.pos + N := by omega
          rw [he, Nat.add_mod_right, Nat.mod_eq_of_lt hpos]
        · have he : b.pos + 1 = N := by omega
          rw [he, Nat.mod_self]
          have he2 : 0 + N - 1 = N - 1 := by omega
          rw [he2, Nat.mod_eq_of_lt (by omega)]
          omega
      unfold lastAux
      rw [hback]
      simp only [if_pos rfl]
      have havoid : ∀ j, 1 ≤ j → j ≤ c → backPos N j b.pos ≠ b.pos := by
        intro j hj1 hj2
        rw [backPos_char hN j b.pos hpos (by omega)]
        split_ifs with hle <;> omega
      rw [lastAux_update N b.cells b.pos (some x) c b.pos havoid,
        hlast c (by omega)]
      simp

/-- C6: feeding `m` lines into a buffer of capacity N ≥ 1 makes `Last k`
return the `min(k, N, m)` most recently inserted lines, oldest to newest —
the suffix of the inserted sequence of that length. -/
theorem ringBuffer_last (N : Nat) (hN : 1 ≤ N) (ms : List String) (k : Nat) :
    (insertAll (NewRingBuffer N) ms).Last k =
      ms.drop (ms.length - min k (min N ms.length)) := by
  obtain ⟨hsize, -, hlast⟩ := insertAll_spec N hN ms
  unfold RingBuffer.Last
  rw [hsize, hlast (min k N) (min_le_right _ _),
    ← List.rtake_eq_reverse_take_reverse, List.rtake]
  congr 1
  omega

/-- C6 witness: inserting m1,m2,m3,m4 into a buffer of capacity 3 makes
`Last 3` return [m2,m3,m4]. -/
theorem ringBuffer_last_witness :
    (insertAll (NewRingBuffer 3) ["m1", "m2", "m3", "m4"]).Last 3 =
      ["m2", "m3", "m4"] := by
  have h := ringBuffer_last 3 (by decide) ["m1", "m2", "m3", "m4"] 3
  simpa using h

/-! ## Container log fan-out (harpoon-agent/logs.go, containerLog)

`containerLog.insert` stores the line in the ring buffer and performs a
non-blocking send (`select` with `default`) to every listener. A Go channel
is modelled by its buffer capacity and current contents; a send is ready
exactly when the buffer has space. (An unbuffered channel with a waiting
receiver is also ready in Go; the spec's scenarios use a drained buffered=1
channel and a buffered=0 channel with no receiver, which this model
captures.) The `select`/`default` is total: the insert itself never
blocks. -/

/-- A `chan string` as seen by a non-blocking send. -/
structure Chan where
  cap : Nat
  buf : List String
deriving DecidableEq, Repr

/-- Whether a non-blocking send on the channel would succeed right now. -/
def chanReady (ch : Chan) : Bool := ch.buf.length < ch.cap

/-- One arm of the `select`: deliver if ready, otherwise drop the message. -/
def trySend (ch : Chan) (line : String) : Chan :=
  if ch.buf.length < ch.cap then { ch with buf := ch.buf ++ [line] } else ch

/-- `containerLog` from logs.go. -/
structure containerLog where
  containerID : String
  entries : RingBuffer
  listeners : List (Nat × Chan)
  nextListenerID : Nat

/-- `containerLog.insert`: store the line, then non-blocking-send it to
every listener. -/
def containerLog.insert (cl : containerLog) (line : String) : containerLog :=
  { cl with
    entries := cl.entries.Insert line
    listeners := cl.listeners.map (fun p => (p.1, trySend p.2 line)) }

/-- The spec's two-subscriber scenario: one buffered=1 drained sink, one
buffered=0 sink. -/
def twoListenerLog : containerLog :=
  { containerID := "c"
    entries := NewRingBuffer 3
    listeners := [(1, { cap := 1, buf := [] }), (2, { cap := 0, buf := [] })]
    nextListenerID := 3 }

/-- C9: inserting a line stores it in the ring buffer and, for every
currently-subscribed sink, either delivers the line (when the sink is ready)
or skips that sink (when it is not) — the outcome at position `i` is a
function of that sink's own state alone, so a not-ready sink never prevents
another sink from receiving, and the (total) insert never blocks. In the
spec's scenario, the buffered=1 sink receives `m1` and the buffered=0 sink
is skipped. -/
theorem containerLog_insert_fanout (cl : containerLog) (line : String) :
    (cl.insert line).entries = cl.entries.Insert line ∧
    (∀ i : Nat, (cl.insert line).listeners[i]? =
      cl.listeners[i]?.map (fun p =>
        (p.1, if chanReady p.2 then { p.2 with buf := p.2.buf ++ [line] } else p.2))) ∧
    (twoListenerLog.insert "m1").listeners =
      [(1, { cap := 1, buf := ["m1"] }), (2, { cap := 0, buf := [] })] := by
  refine ⟨rfl, fun i => ?_, by rfl⟩
  show (cl.listeners.map (fun p => (p.1, trySend p.2 line)))[i]? = _
  rw [List.getElem?_map]
  cases cl.listeners[i]? with
  | none => rfl
  | some p =>
    by_cases h : p.2.buf.length < p.2.cap <;> simp [trySend, chanReady, h]

/-! ## Scheduler public API: the Migrate guard (harpoon-scheduler/scheduler.go)

`basicScheduler.loop` answers a migrate request by first extracting the
common artifact URL of the existing job with `getArtifactURL`; on error it
replies with the error and never calls `migrate`, so no schedule or
unschedule operation reaches the registry. `migrate` itself (placement,
schedule-1/unschedule-1, undo stack) is abstracted as an arbitrary
`migrateImpl`, which the error path provably never invokes. -/

/-- `scheduler.Task`: name, scale, container config. (Health checks are
external configstore data and are not modelled.) -/
structure Task where
  taskName : String
  scale : Int
  config : ContainerConfig
deriving DecidableEq, Repr

/-- `scheduler.Job`: named collection of tasks, keyed by task name. -/
structure Job where
  jobName : String
  tasks : List (String × Task)
deriving DecidableEq, Repr

/-- `getArtifactURL`: count the distinct artifact URLs across the job's
tasks (the Go code builds a `map[string]int` and checks its size); exactly
one is required. -/
def getArtifactURL (job : Job) : Except String String :=
  match (job.tasks.map (fun t => t.2.config.artifactURL)).dedup with
  | [u] => .ok u
  | us => .error (job.jobName ++ ": " ++ toString us.length ++ " unique artifact URLs detected")

/-- The migrate branch of `basicScheduler.loop`: extract the artifact URL;
on error reply with the error and leave the registry untouched, otherwise
run `migrate` (abstracted as `migrateImpl`, given the artifact URL). -/
def handleMigrate (migrateImpl : String → RegState → Except String Unit × RegState)
    (existingJob : Job) (reg : RegState) : Except String Unit × RegState :=
  match getArtifactURL existingJob with
  | .error e => (.error ("cannot migrate job " ++ existingJob.jobName ++ ": " ++ e), reg)
  | .ok url => migrateImpl url reg

/-- C8: a migrate request for an old job with no tasks, or with two tasks
carrying different artifact URLs, is answered with an error, and the
registry state is returned unchanged no matter what `migrate` would have
done — it is never invoked. -/
theorem handleMigrate_error (migrateImpl : String → RegState → Except String Unit × RegState)
    (job : Job) (reg : RegState)
    (h : job.tasks = [] ∨ ∃ p ∈ job.tasks, ∃ q ∈ job.tasks,
      p.2.config.artifactURL ≠ q.2.config.artifactURL) :
    ∃ e, handleMigrate migrateImpl job reg = (.error e, reg) := by
  have hnotone : ∀ u, (job.tasks.map (fun t => t.2.config.artifactURL)).dedup ≠ [u] := by
    intro u hu
    rcases h with h | ⟨p, hp, q, hq, hne⟩
    · rw [h] at hu
      simp at hu
    · have hp' : p.2.config.artifactURL ∈
          (job.tasks.map (fun t => t.2.config.artifactURL)).dedup := by
        rw [List.mem_dedup]
        exact List.mem_map_of_mem _ hp
      have hq' : q.2.config.artifactURL ∈
          (job.tasks.map (fun t => t.2.config.artifactURL)).dedup := by
        rw [List.mem_dedup]
        exact List.mem_map_of_mem _ hq
      rw [hu] at hp' hq'
      simp at hp' hq'
      exact hne (hp'.trans hq'.symm)
  have herr : ∃ msg, getArtifactURL job = .error msg := by
    cases hg : getArtifactURL job with
    | error msg => exact ⟨msg, rfl⟩
    | ok u =>
      exfalso
      unfold getArtifactURL at hg
      rcases hdd : (job.tasks.map (fun t => t.2.config.artifactURL)).dedup with
        - | ⟨a, - | ⟨b, tail2⟩⟩
      · rw [hdd] at hg
        exact Except.noConfusion hg
      · exact hnotone a hdd
      · rw [hdd] at hg
        exact Except.noConfusion hg
  obtain ⟨msg, hmsg⟩ := herr
  refine ⟨"cannot migrate job " ++ job.jobName ++ ": " ++ msg, ?_⟩
  simp [handleMigrate, hmsg]

/-- A job whose two tasks carry different artifact URLs. -/
def exampleMixedJob : Job :=
  { jobName := "job"
    tasks :=
      [("web", { taskName := "web", scale := 1, config := exampleConfig }),
       ("db", { taskName := "db", scale := 1,
                config := { exampleConfig with artifactURL := "http://host/b.tar.gz" } })] }

/-- C8 witness: the guard applied to the mixed-URL job, the empty registry,
and a migrate implementation that would have mutated the registry. -/
theorem handleMigrate_error_witness :
    ∃ e, handleMigrate (fun _ r => (.ok (), { r with pendingSchedule := updateMap r.pendingSchedule "x" (some exampleSpec) }))
      exampleMixedJob emptyRegState = (.error e, emptyRegState) :=
  handleMigrate_error _ exampleMixedJob emptyRegState (by decide)

/-! ## Transformer diff (harpoon-scheduler transform.go, diffRegistryStates)

`diffRegistryStates` compares the desired map (container ID → taskSpec)
against the remote state (container ID → endpoint-tagged ContainerInstance).
The Go code iterates both maps; they are embedded as association lists with
no-duplicate keys, looked up with `mapGet`. The first loop walks `desired`,
the second walks `actual`; a container status without a handler in the first
loop (i.e. `deleted`, which is never stored) panics, modelled as `none`. -/

/-- `endpointContainerInstance`: a container instance tagged with the agent
endpoint it lives on. -/
structure endpointContainerInstance where
  endpoint : String
  inst : ContainerInstance
deriving DecidableEq, Repr

/-- First loop of `diffRegistryStates`: everything desired that is missing
from actual, or failed in actual, goes to `toSchedule`. -/
def diffLoop1 : List (String × endpointContainerInstance) →
    List (String × taskSpec) → (String → Option taskSpec) →
    Option (String → Option taskSpec)
  | _, [], toSchedule => some toSchedule
  | actual, (id, desired) :: rest, toSchedule =>
    match mapGet actual id with
    | none => diffLoop1 actual rest (updateMap toSchedule id (some desired))
    | some a =>
      match a.inst.status with
      | .starting => diffLoop1 actual rest toSchedule
      | .running => diffLoop1 actual rest toSchedule
      | .failed => diffLoop1 actual rest (updateMap toSchedule id (some desired))
      | .finished => diffLoop1 actual rest toSchedule
      | .deleted => none

/-- Second loop of `diffRegistryStates`: everything actual that is not
desired goes to `toUnschedule`; an endpoint mismatch is a move (unschedule
at the current endpoint, schedule at the desired one). -/
def diffLoop2 : List (String × taskSpec) →
    List (String × endpointContainerInstance) →
    (String → Option taskSpec) → (String → Option taskSpec) →
    (String → Option taskSpec) × (String → Option taskSpec)
  | _, [], toSchedule, toUnschedule => (toSchedule, toUnschedule)
  | desired, (id, a) :: rest, toSchedule, toUnschedule =>
    match mapGet desired id with
    | none =>
      diffLoop2 desired rest toSchedule
        (updateMap toUnschedule id (some ⟨a.endpoint, a.inst.config⟩))
    | some d =>
      if d.endpoint ≠ a.endpoint then
        diffLoop2 desired rest (updateMap toSchedule id (some d))
          (updateMap toUnschedule id (some ⟨a.endpoint, a.inst.config⟩))
      else diffLoop2 desired rest toSchedule toUnschedule

/-- `diffRegistryStates`: both loops over initially-empty result maps; a
panic in the first loop propagates. -/
def diffRegistryStates (desired : List (String × taskSpec))
    (actual : List (String × endpointContainerInstance)) :
    Option ((String → Option taskSpec) × (String → Option taskSpec)) :=
  (diffLoop1 actual desired emptySMap).map
    (fun toSchedule => diffLoop2 desired actual toSchedule emptySMap)

theorem mapGet_eq_none {α : Type} {l : List (String × α)} {k : String}
    (h : k ∉ l.map Prod.fst) : mapGet l k = none := by
  induction l with
  | nil => rfl
  | cons p rest ih =>
    obtain ⟨k', v'⟩ := p
    rw [List.map_cons, List.mem_cons, not_or] at h
    rw [mapGet, if_neg (fun he => h.1 he.symm)]
    exact ih h.2

theorem diffLoop1_char (actual : List (String × endpointContainerInstance))
    (hA : ∀ p ∈ actual, p.2.inst.status ≠ ContainerStatus.deleted) :
    ∀ (desired : List (String × taskSpec)) (acc : String → Option taskSpec),
      (desired.map Prod.fst).Nodup →
      diffLoop1 actual desired acc = some (fun id =>
        match mapGet desired id, mapGet actual id with
        | some d, none => some d
        | some d, some a =>
            if a.inst.status = ContainerStatus.failed then some d else acc id
        | none, _ => acc id) := by
  intro desired
  induction desired with
  | nil => intro acc _; rfl
  | cons hd rest ih =>
    obtain ⟨k, d⟩ := hd
    intro acc hnd
    rw [List.map_cons, List.nodup_cons] at hnd
    obtain ⟨hk, hrest⟩ := hnd
    have hrk : mapGet rest k = none := mapGet_eq_none hk
    cases hak : mapGet actual k with
    | none =>
      simp only [diffLoop1, hak]
      rw [ih (updateMap acc k (some d)) hrest]
      congr 1
      funext id
      by_cases hid : id = k
      · subst hid
        simp [mapGet, hrk, hak, updateMap_eq]
      · simp [mapGet, Ne.symm hid, updateMap_ne _ _ hid]
    | some a =>
      cases hst : a.inst.status with
      | deleted => exact absurd hst (hA _ (mapGet_some_mem hak))
      | starting =>
        simp only [diffLoop1, hak, hst]
        rw [ih acc hrest]
        congr 1
        funext id
        by_cases hid : id = k
        · subst hid
          simp [mapGet, hrk, hak, hst]
        · simp [mapGet, Ne.symm hid]
      | running =>
        simp only [diffLoop1, hak, hst]
        rw [ih acc hrest]
        congr 1
        funext id
        by_cases hid : id = k
        · subst hid
          simp [mapGet, hrk, hak, hst]
        · simp [mapGet, Ne.symm hid]
      | finished =>
        simp only [diffLoop1, hak, hst]
        rw [ih acc hrest]
        congr 1
        funext id
        by_cases hid : id = k
        · subst hid
          simp [mapGet, hrk, hak, hst]
        · simp [mapGet, Ne.symm hid]
      | failed =>
        simp only [diffLoop1, hak, hst]
        rw [ih (updateMap acc k (some d)) hrest]
        congr 1
        funext id
        by_cases hid : id = k
        · subst hid
          simp [mapGet, hrk, hak, hst, updateMap_eq]
        · simp [mapGet, Ne.symm hid, updateMap_ne _ _ hid]

theorem diffLoop2_char (desired : List (String × taskSpec)) :
    ∀ (actual : List (String × endpointContainerInstance))
      (ts tu : String → Option taskSpec),
      (actual.map Prod.fst).Nodup →
      diffLoop2 desired actual ts tu =
        (fun id =>
          match mapGet actual id, mapGet desired id with
          | some a, some d => if d.endpoint ≠ a.endpoint then some d else ts id
          | some _, none => ts id
          | none, _ => ts id,
         fun id =>
          match mapGet actual id, mapGet desired id with
          | some a, none => some ⟨a.endpoint, a.inst.config⟩
          | some a, some d =>
              if d.endpoint ≠ a.endpoint then some ⟨a.endpoint, a.inst.config⟩
              else tu id
          | none, _ => tu id) := by
  intro actual
  induction actual with
  | nil => intro ts tu _; rfl
  | cons hd rest ih =>
    obtain ⟨k, a⟩ := hd
    intro ts tu hnd
    rw [List.map_cons, List.nodup_cons] at hnd
    obtain ⟨hk, hrest⟩ := hnd
    have hrk : mapGet rest k = none := mapGet_eq_none hk
    cases hdk : mapGet desired k with
    | none =>
      simp only [diffLoop2, hdk]
      rw [ih ts (updateMap tu k (some ⟨a.endpoint, a.inst.config⟩)) hrest]
      congr 1 <;> funext id <;> by_cases hid : id = k
      · subst hid
        simp [mapGet, hrk, hdk]
      · simp [mapGet, Ne.symm hid]
      · subst hid
        simp [mapGet, hrk, hdk, updateMap_eq]
      · simp [mapGet, Ne.symm hid, updateMap_ne _ _ hid]
    | some d =>
      by_cases hep : d.endpoint = a.endpoint
      · simp only [diffLoop2, hdk, if_neg (not_not_intro hep)]
        rw [ih ts tu hrest]
        congr 1 <;> funext id <;> by_cases hid : id = k
        · subst hid
          simp [mapGet, hrk, hdk, hep]
        · simp [mapGet, Ne.symm hid]
        · subst hid
          simp [mapGet, hrk, hdk, hep]
        · simp [mapGet, Ne.symm hid]
      · simp only [diffLoop2, hdk, if_pos hep]
        rw [ih (updateMap ts k (some d))
          (updateMap tu k (some ⟨a.endpoint, a.inst.config⟩)) hrest]
        congr 1 <;> funext id <;> by_cases hid : id = k
        · subst hid
          simp [mapGet, hrk, hdk, hep, updateMap_eq]
        · simp [mapGet, Ne.symm hid, updateMap_ne _ _ hid]
        · subst hid
          simp [mapGet, hrk, hdk, hep, updateMap_eq]
        · simp [mapGet, Ne.symm hid, updateMap_ne _ _ hid]

/-- The `toSchedule` map the diff computes, in closed form. -/
def diffToSchedule (desired : List (String × taskSpec))
    (actual : List (String × endpointContainerInstance)) :
    String → Option taskSpec := fun id =>
  match mapGet desired id, mapGet actual id with
  | some d, none => some d
  | some d, some a =>
      if a.inst.status = ContainerStatus.failed ∨ d.endpoint ≠ a.endpoint then
        some d
      else none
  | none, _ => none

/-- The `toUnschedule` map the diff computes, in closed form. -/
def diffToUnschedule (desired : List (String × taskSpec))
    (actual : List (String × endpointContainerInstance)) :
    String → Option taskSpec := fun id =>
  match mapGet actual id, mapGet desired id with
  | some a, none => some ⟨a.endpoint, a.inst.config⟩
  | some a, some d =>
      if d.endpoint ≠ a.endpoint then some ⟨a.endpoint, a.inst.config⟩ else none
  | none, _ => none

/-- C5: for no-duplicate desired/actual maps whose actual statuses are among
starting, running, failed, finished, the diff succeeds; `toSchedule` holds
exactly the desired IDs that are missing from actual, failed in actual, or
at an endpoint other than the desired one; `toUnschedule` holds exactly the
actual IDs that are not desired or at an endpoint other than the desired
one; and an ID present in both at the same endpoint with status starting,
running, or finished lands in neither. -/
theorem diffRegistryStates_char (desired : List (String × taskSpec))
    (actual : List (String × endpointContainerInstance))
    (hd : (desired.map Prod.fst).Nodup) (ha : (actual.map Prod.fst).Nodup)
    (hA : ∀ p ∈ actual, p.2.inst.status ≠ ContainerStatus.deleted) :
    diffRegistryStates desired actual =
      some (diffToSchedule desired actual, diffToUnschedule desired actual) ∧
    (∀ id, (diffToSchedule desired actual id).isSome ↔
      ∃ d, mapGet desired id = some d ∧
        (mapGet actual id = none ∨
         ∃ a, mapGet actual id = some a ∧
           (a.inst.status = ContainerStatus.failed ∨ d.endpoint ≠ a.endpoint))) ∧
    (∀ id, (diffToUnschedule desired actual id).isSome ↔
      ∃ a, mapGet actual id = some a ∧
        (mapGet desired id = none ∨
         ∃ d, mapGet desired id = some d ∧ d.endpoint ≠ a.endpoint)) ∧
    (∀ id d a, mapGet desired id = some d → mapGet actual id = some a →
      d.endpoint = a.endpoint →
      (a.inst.status = ContainerStatus.starting ∨
       a.inst.status = ContainerStatus.running ∨
       a.inst.status = ContainerStatus.finished) →
      diffToSchedule desired actual id = none ∧
        diffToUnschedule desired actual id = none) := by
  refine ⟨?_, ?_, ?_, ?_⟩
  · unfold diffRegistryStates
    rw [diffLoop1_char actual hA desired emptySMap hd, Option.map_some',
      diffLoop2_char desired actual _ emptySMap ha]
    refine congrArg some (Prod.ext ?_ ?_)
    · funext id
      cases hdk : mapGet desired id with
      | none =>
        cases hak : mapGet actual id with
        | none => simp [diffToSchedule, hdk, hak, emptySMap]
        | some a => simp [diffToSchedule, hdk, hak, emptySMap]
      | some d =>
        cases hak : mapGet actual id with
        | none => simp [diffToSchedule, hdk, hak]
        | some a =>
          by_cases hep : d.endpoint = a.endpoint <;>
            by_cases hf : a.inst.status = ContainerStatus.failed <;>
            simp [diffToSchedule, hdk, hak, hep, hf, emptySMap]
    · funext id
      cases hdk : mapGet desired id with
      | none =>
        cases hak : mapGet actual id with
        | none => simp [diffToUnschedule, hdk, hak, emptySMap]
        | some a => simp [diffToUnschedule, hdk, hak]
      | some d =>
        cases hak : mapGet actual id with
        | none => simp [diffToUnschedule, hdk, hak, emptySMap]
        | some a =>
          by_cases hep : d.endpoint = a.endpoint <;>
            simp [diffToUnschedule, hdk, hak, hep, emptySMap]
  · intro id
    cases hdk : mapGet desired id with
    | none =>
      cases hak : mapGet actual id with
      | none => simp [diffToSchedule, hdk, hak]
      | some a => simp [diffToSchedule, hdk, hak]
    | some d =>
      cases hak : mapGet actual id with
      | none => simp [diffToSchedule, hdk, hak]
      | some a =>
        by_cases hep : d.endpoint = a.endpoint <;>
          by_cases hf : a.inst.status = ContainerStatus.failed <;>
          simp [diffToSchedule, hdk, hak, hep, hf]
  · intro id
    cases hdk : mapGet desired id with
    | none =>
      cases hak : mapGet actual id with
      | none => simp [diffToUnschedule, hdk, hak]
      | some a => simp [diffToUnschedule, hdk, hak]
    | some d =>
      cases hak : mapGet actual id with
      | none => simp [diffToUnschedule, hdk, hak]
      | some a =>
        by_cases hep : d.endpoint = a.endpoint <;>
          simp [diffToUnschedule, hdk, hak, hep]
  · intro id d a hd' ha' hep hsts
    rcases hsts with h | h | h <;>
      simp [diffToSchedule, diffToUnschedule, hd', ha', hep, h]

/-- A concrete desired map: "a" on the example endpoint, "b" on a second
endpoint. -/
def exampleDesired : List (String × taskSpec) :=
  [("a", exampleSpec),
   ("b", { endpoint := "http://agent2:3333", config := exampleConfig })]

/-- A concrete actual map: "b" running on the wrong endpoint, "c" finished
but undesired. -/
def exampleActual : List (String × endpointContainerInstance) :=
  [("b", { endpoint := "http://agent:3333",
           inst := { id := "b", status := .running, config := exampleConfig } }),
   ("c", { endpoint := "http://agent:3333",
           inst := { id := "c", status := .finished, config := exampleConfig } })]

/-- C5 witness: the characterization applied at the concrete desired and
actual maps. -/
theorem diffRegistryStates_char_witness :
    diffRegistryStates exampleDesired exampleActual =
      some (diffToSchedule exampleDesired exampleActual,
        diffToUnschedule exampleDesired exampleActual) ∧
    (∀ id, (diffToSchedule exampleDesired exampleActual id).isSome ↔
      ∃ d, mapGet exampleDesired id = some d ∧
        (mapGet exampleActual id = none ∨
         ∃ a, mapGet exampleActual id = some a ∧
           (a.inst.status = ContainerStatus.failed ∨ d.endpoint ≠ a.endpoint))) ∧
    (∀ id, (diffToUnschedule exampleDesired exampleActual id).isSome ↔
      ∃ a, mapGet exampleActual id = some a ∧
        (mapGet exampleDesired id = none ∨
         ∃ d, mapGet exampleDesired id = some d ∧ d.endpoint ≠ a.endpoint)) ∧
    (∀ id d a, mapGet exampleDesired id = some d →
      mapGet exampleActual id = some a →
      d.endpoint = a.endpoint →
      (a.inst.status = ContainerStatus.starting ∨
       a.inst.status = ContainerStatus.running ∨
       a.inst.status = ContainerStatus.finished) →
      diffToSchedule exampleDesired exampleActual id = none ∧
        diffToUnschedule exampleDesired exampleActual id = none) :=
  diffRegistryStates_char exampleDesired exampleActual
    (by decide) (by decide) (by decide)
